import Mathlib

/-!
Verification development for a small Bayesian-network expert system
(`expert_system.py`). The program builds a fixed four-variable network
(Inteligencia, Dificultad, Asistencia → Nota) with pgmpy, runs variable
elimination to answer `P(Nota | evidence)`, and wraps this in a fact base,
a justification log, a knowledge-acquisition path and a small UI/database
state machine.

The network structure, CPD tables, fact base, knowledge-acquisition loop
and `run_inference` control flow are embedded directly from the source.
The variable-elimination engine and `check_model` are pgmpy library calls
whose code is not part of the repository; they are modelled from the
specification (restrict evidence, eliminate each non-query non-evidence
variable by multiply-then-marginalize, multiply the remainder, normalize;
validation checks scope structure and per-parent-assignment normalization).
Probabilities are exact rationals, so every floating tolerance claim is
settled exactly.
-/

namespace BayesES

/-- The four variables of the network built in `KnowledgeBase.__init__`. -/
inductive Var : Type
  | Inteligencia
  | Dificultad
  | Asistencia
  | Nota
deriving DecidableEq, Fintype, Repr

/-- All variables are binary (`variable_card=2` throughout the source);
an assignment gives each variable a value in `{0, 1}`. -/
def Assign : Type := Var → Fin 2

/-- Point update of an assignment. -/
def setVar (x : Assign) (v : Var) (c : Fin 2) : Assign :=
  fun w => if w = v then c else x w

/-- A factor: an ordered scope plus a table of rational values, read by
evaluating `val` on a full assignment (the value may only depend on the
scope variables for the factors the program builds). -/
structure Factor where
  scope : List Var
  val : Assign → ℚ

/-- `Factor.restrict`: fix one scope variable to a concrete value and drop
it from scope (spec §4.1). -/
def Factor.restrict (f : Factor) (v : Var) (c : Fin 2) : Factor :=
  ⟨f.scope.erase v, fun x => f.val (setVar x v c)⟩

/-- `Factor.multiply`: pointwise product over the union of the scopes,
left factor's scope order first (spec §4.1). -/
def Factor.multiply (f g : Factor) : Factor :=
  ⟨f.scope ++ g.scope.filter (fun v => !(f.scope.contains v)),
   fun x => f.val x * g.val x⟩

/-- `Factor.marginalize`: sum one binary variable out of the table
(spec §4.1; every variable of this model has cardinality 2). -/
def Factor.marginalize (f : Factor) (v : Var) : Factor :=
  ⟨f.scope.erase v, fun x => f.val (setVar x v 0) + f.val (setVar x v 1)⟩

/-- Total mass of a factor: marginalize every scope variable out and read
the resulting constant table. -/
def Factor.total (f : Factor) : ℚ :=
  (f.scope.foldl Factor.marginalize f).val (fun _ => 0)

/-- `Factor.normalize`: divide every value by the table's total mass
(spec §4.1). -/
def Factor.normalize (f : Factor) : Factor :=
  ⟨f.scope, fun x => f.val x / f.total⟩

/-- CPD of Inteligencia: `TabularCPD(values=[[0.7],[0.3]])`. -/
def cpdInteligencia : Factor :=
  ⟨[Var.Inteligencia], fun x => if x Var.Inteligencia = 0 then 7/10 else 3/10⟩

/-- CPD of Dificultad: `TabularCPD(values=[[0.6],[0.4]])`. -/
def cpdDificultad : Factor :=
  ⟨[Var.Dificultad], fun x => if x Var.Dificultad = 0 then 6/10 else 4/10⟩

/-- CPD of Asistencia: `TabularCPD(values=[[0.8],[0.2]])`. -/
def cpdAsistencia : Factor :=
  ⟨[Var.Asistencia], fun x => if x Var.Asistencia = 0 then 8/10 else 2/10⟩

/-- Row `P(Nota=0 | Inteligencia, Dificultad, Asistencia)` of the 8-column
table in `_define_cpds`: `[0.9, 0.7, 0.8, 0.1, 0.8, 0.6, 0.7, 0.3]`,
columns ordered with evidence `[Inteligencia, Dificultad, Asistencia]`,
last evidence variable fastest-varying (pgmpy column order). -/
def notaRow0 (i d a : Fin 2) : ℚ :=
  if i = 0 then
    if d = 0 then (if a = 0 then 9/10 else 7/10)
    else (if a = 0 then 8/10 else 1/10)
  else
    if d = 0 then (if a = 0 then 8/10 else 6/10)
    else (if a = 0 then 7/10 else 3/10)

/-- Row `P(Nota=1 | ...)` of the same table:
`[0.1, 0.3, 0.2, 0.9, 0.2, 0.4, 0.3, 0.7]`. -/
def notaRow1 (i d a : Fin 2) : ℚ :=
  if i = 0 then
    if d = 0 then (if a = 0 then 1/10 else 3/10)
    else (if a = 0 then 2/10 else 9/10)
  else
    if d = 0 then (if a = 0 then 2/10 else 4/10)
    else (if a = 0 then 3/10 else 7/10)

/-- CPD of Nota, scope child-first then the declared evidence order. -/
def cpdNota : Factor :=
  ⟨[Var.Nota, Var.Inteligencia, Var.Dificultad, Var.Asistencia],
   fun x =>
     if x Var.Nota = 0 then
       notaRow0 (x Var.Inteligencia) (x Var.Dificultad) (x Var.Asistencia)
     else
       notaRow1 (x Var.Inteligencia) (x Var.Dificultad) (x Var.Asistencia)⟩

/-- A model: the DAG edges plus one conditional factor per variable
(the pgmpy `BayesianNetwork` with its attached CPDs). -/
structure Model where
  edges : List (Var × Var)
  cpds : Var → Factor

/-- The network built in `KnowledgeBase.__init__` / `_define_cpds`. -/
def initialModel : Model :=
  ⟨[(Var.Inteligencia, Var.Nota), (Var.Dificultad, Var.Nota),
    (Var.Asistencia, Var.Nota)],
   fun v => match v with
     | Var.Inteligencia => cpdInteligencia
     | Var.Dificultad => cpdDificultad
     | Var.Asistencia => cpdAsistencia
     | Var.Nota => cpdNota⟩

/-- Parents of a variable according to the edge list. -/
def Model.parents (m : Model) (v : Var) : List Var :=
  (m.edges.filter (fun e => e.2 == v)).map (fun e => e.1)

/-- Concrete tuple form of an assignment, used to quantify decidably. -/
def Asg : Type := Fin 2 × Fin 2 × Fin 2 × Fin 2

instance : DecidableEq Asg := by unfold Asg; infer_instance

instance : Fintype Asg := by unfold Asg; infer_instance

/-- Turn an `(i, d, a, n)` tuple into an assignment. -/
def toAssign : Asg → Assign :=
  fun t v => match v with
    | Var.Inteligencia => t.1
    | Var.Dificultad => t.2.1
    | Var.Asistencia => t.2.2.1
    | Var.Nota => t.2.2.2

/-- The floating tolerance the specification fixes (ε = 1e-6). -/
def tol : ℚ := 1/1000000

/-- Sum of a variable's conditional factor over that variable's two values,
at a fixed assignment of everything else: one CPD column sum. -/
def colSum (m : Model) (v : Var) (x : Assign) : ℚ :=
  (m.cpds v).val (setVar x v 0) + (m.cpds v).val (setVar x v 1)

/-- Modelled from the spec: `check_model` / `validate()` is pgmpy library
code not in the repository. Per spec §4.2 it checks that every variable's
conditional factor has scope `child :: parents` and that for every fixed
assignment of the parents the values over the child's domain sum to 1
within ε = 1e-6. -/
def checkModelP (m : Model) : Prop :=
  ∀ v : Var, (m.cpds v).scope = v :: m.parents v ∧
    ∀ a : Asg, |colSum m v (toAssign a) - 1| ≤ tol

instance checkModelP.instDecidable (m : Model) : Decidable (checkModelP m) := by
  unfold checkModelP; infer_instance

/-- Boolean form of the validation check (the `assert check_model()`). -/
def checkModel (m : Model) : Bool := decide (checkModelP m)

/-- An evidence configuration: an optional observed value for each of
Inteligencia, Dificultad, Asistencia (in that order). The query variable
Nota never carries evidence in the program. -/
def EvT : Type := Option (Fin 2) × Option (Fin 2) × Option (Fin 2)

instance : DecidableEq EvT := by unfold EvT; infer_instance

instance : Fintype EvT := by unfold EvT; infer_instance

/-- Evidence value carried by a variable under a configuration. -/
def evAt (e : EvT) (v : Var) : Option (Fin 2) :=
  match v with
  | Var.Inteligencia => e.1
  | Var.Dificultad => e.2.1
  | Var.Asistencia => e.2.2
  | Var.Nota => none

/-- Modelled from the spec: step 1 of variable elimination (pgmpy's
`VariableElimination.query` is library code not in the repository) —
restrict a factor by every evidence variable appearing in its scope. -/
def restrictEvidence (e : EvT) (f : Factor) : Factor :=
  f.scope.foldl
    (fun g v => match evAt e v with
      | some c => g.restrict v c
      | none => g) f

/-- Modelled from the spec: eliminate one variable — multiply together
every working factor that mentions it, marginalize it out of the product,
and replace those factors by the single result (spec §4.3 step 3). -/
def elimVar (factors : List Factor) (v : Var) : List Factor :=
  match factors.filter (fun f => f.scope.contains v) with
  | [] => factors
  | f :: fs =>
    factors.filter (fun f => !(f.scope.contains v)) ++
      [(fs.foldl Factor.multiply f).marginalize v]

/-- The neutral factor used to multiply the remaining factors together. -/
def unitFactor : Factor := ⟨[], fun _ => 1⟩

/-- Modelled from the spec: the whole elimination pipeline of
`InferenceEngine.infer` (query variable Nota) — restrict the model's
conditional factors by the evidence, eliminate each variable of `order`,
multiply the remaining factors, and normalize (spec §4.3 steps 1–5). -/
def runElimination (m : Model) (e : EvT) (order : List Var) : Factor :=
  let factors :=
    [Var.Inteligencia, Var.Dificultad, Var.Asistencia, Var.Nota].map
      (fun v => restrictEvidence e (m.cpds v))
  ((order.foldl elimVar factors).foldl Factor.multiply unitFactor).normalize

/-- The elimination set the engine uses for the query on Nota: every
variable that is neither the query variable nor an evidence variable
(spec §4.3 step 2). -/
def elimOrder (e : EvT) : List Var :=
  [Var.Inteligencia, Var.Dificultad, Var.Asistencia].filter
    (fun v => (evAt e v).isNone)

/-- Posterior probability `P(Nota = b | e)` computed with a given
elimination order. -/
def posteriorVal (m : Model) (e : EvT) (order : List Var) (b : Fin 2) : ℚ :=
  (runElimination m e order).val (setVar (fun _ => 0) Var.Nota b)

/-- `InferenceEngine.infer` followed by `result.values[1]`: the value the
program reports, `P(Nota = 1 | evidence)`, using the engine's elimination
set over the validated knowledge base. -/
def inferNota1 (m : Model) (e : EvT) : ℚ :=
  posteriorVal m e (elimOrder e) 1

/-- All ways of inserting an element at one position of a list. -/
def insertions (x : Var) : List Var → List (List Var)
  | [] => [[x]]
  | y :: ys => (x :: y :: ys) :: (insertions x ys).map (fun l => y :: l)

/-- All permutations of a list, by structural recursion. -/
def permsList : List Var → List (List Var)
  | [] => [[]]
  | x :: xs => (permsList xs).flatMap (insertions x)

/-- A new conditional table handed to
`KnowledgeAcquisitionSystem.update_knowledge`: pgmpy's `TabularCPD` keys
the table by its child variable. -/
structure Cpd where
  child : Var
  factor : Factor

/-- One `model.add_cpds(cpd)` call: pgmpy replaces the conditional table
attached to the cpd's variable. -/
def replaceCpd (m : Model) (c : Cpd) : Model :=
  ⟨m.edges, fun w => if w = c.child then c.factor else m.cpds w⟩

/-- `KnowledgeAcquisitionSystem.update_knowledge`: add every cpd of the
batch, then `assert check_model()`. The returned Boolean is the assertion
outcome; the returned model is the knowledge base state after the call
(the mutation the loop performed, whether or not the assertion passed). -/
def updateKnowledge (m : Model) (batch : List Cpd) : Bool × Model :=
  let m' := batch.foldl replaceCpd m
  (checkModel m', m')

/-- The factor the last batch entry for a given variable carries, if the
batch updates that variable at all (later entries shadow earlier ones). -/
def lastCpdFor : List Cpd → Var → Option Factor
  | [], _ => none
  | c :: rest, v =>
    match lastCpdFor rest v with
    | some f => some f
    | none => if c.child = v then some c.factor else none

/-- `FactBase.facts`: a mutable mapping from fact name to value;
`add_fact` assigns `facts[key] = value`. -/
def addFact (fb : String → Option ℤ) (k : String) (v : ℤ) :
    String → Option ℤ :=
  fun k' => if k' = k then some v else fb k'

/-- The fact base reached from an empty `FactBase` by a sequence of
`add_fact(key, value)` calls. -/
def buildFacts (ops : List (String × ℤ)) : String → Option ℤ :=
  ops.foldl (fun fb p => addFact fb p.1 p.2) (fun _ => none)

/-- The value of the most recent `add_fact` for a key in a call sequence
(entries closer to the tail are more recent). -/
def mostRecent : List (String × ℤ) → String → Option ℤ
  | [], _ => none
  | p :: rest, k =>
    match mostRecent rest k with
    | some v => some v
    | none => if p.1 = k then some p.2 else none

/-- The mutable state of `ExpertSystem`: the knowledge base model, the
fact base, the justification log (each entry records the fact snapshot
the message interpolates), and the database's `facts` and `results`
tables. `resultLabel` is the probability shown in the UI label. -/
structure SysState where
  model : Model
  factBase : String → Option ℤ
  justifications : List (String → Option ℤ)
  dbFacts : List (String × ℤ)
  dbResults : List ℚ
  resultLabel : Option ℚ

/-- Conversion of a stored fact value to an in-domain evidence value;
only applied to values the input check has confirmed to be 0 or 1. -/
def toF2 (z : ℤ) : Option (Fin 2) :=
  if z = 0 then some 0 else if z = 1 then some 1 else none

/-- The evidence dictionary `fact_base.get_facts()` passes to the engine:
the entries stored under the names `Inteligencia` and `Asistencia`. -/
def evidenceOfFacts (fb : String → Option ℤ) : EvT :=
  ((fb "Inteligencia").bind toF2, none, (fb "Asistencia").bind toF2)

/-- `UserInterface.run_inference`, one button press. The two inputs are
the parse outcomes of the entry fields (`none` when `int()` raises).
On a parse failure or a value outside `{0, 1}` the `ValueError` handler
shows a message box and nothing else happens. Otherwise the two facts are
recorded, the engine is queried with `get_facts()` as evidence, and the
justification, both database rows, the result row and the label are
written. Returns the new state and the reported posterior (`none` on the
error path). -/
def runInference (s : SysState) (iv av : Option ℤ) :
    SysState × Option ℚ :=
  match iv, av with
  | some i, some a =>
    if (i = 0 ∨ i = 1) ∧ (a = 0 ∨ a = 1) then
      let fb := addFact (addFact s.factBase "Inteligencia" i) "Asistencia" a
      let p := inferNota1 s.model (evidenceOfFacts fb)
      (⟨s.model, fb, s.justifications ++ [fb],
        s.dbFacts ++ [("Inteligencia", i), ("Asistencia", a)],
        s.dbResults ++ [p], some p⟩, some p)
    else (s, none)
  | _, _ => (s, none)

/-- One UI interaction as a state step. -/
def stepUI (s : SysState) (inp : Option ℤ × Option ℤ) : SysState :=
  (runInference s inp.1 inp.2).1

/-- The state `ExpertSystem.__init__` builds. -/
def initState : SysState :=
  ⟨initialModel, fun _ => none, [], [], [], none⟩

/-- `ExpertSystem.__init__`: builds the `KnowledgeBase` (whose constructor
runs `_define_cpds` and `assert check_model()`) and only then the
`InferenceEngine` and the rest. The assertion failing means no system
state is ever produced. -/
def mkExpertSystem : Option SysState :=
  if checkModel initialModel then some initState else none

/-- A conditional table for Inteligencia whose column sums to 0.9,
so `check_model` fails on any model holding it. -/
def badCpd : Cpd :=
  ⟨Var.Inteligencia,
   ⟨[Var.Inteligencia], fun x => if x Var.Inteligencia = 0 then 1/2 else 2/5⟩⟩

attribute [local semireducible] Rat.add Rat.mul Rat.inv Rat.sub

theorem runInference_model (s : SysState) (iv av : Option ℤ) :
    ((runInference s iv av).1).model = s.model := by
  rcases iv with _ | i
  · rfl
  rcases av with _ | a
  · rfl
  simp only [runInference]
  split <;> rfl

theorem foldl_stepUI_model (inputs : List (Option ℤ × Option ℤ)) :
    ∀ s : SysState, ((inputs.foldl stepUI s).model) = s.model := by
  induction inputs with
  | nil => intro s; rfl
  | cons p rest ih =>
    intro s
    rw [List.foldl_cons, ih (stepUI s p)]
    exact runInference_model s p.1 p.2

theorem foldl_addFact_or (ops : List (String × ℤ)) :
    ∀ (fb : String → Option ℤ) (k : String),
      ops.foldl (fun fb p => addFact fb p.1 p.2) fb k =
        (mostRecent ops k).or (fb k) := by
  induction ops with
  | nil => intro fb k; rfl
  | cons p rest ih =>
    intro fb k
    rw [List.foldl_cons, ih (addFact fb p.1 p.2) k]
    rcases hmr : mostRecent rest k with _ | v
    · simp only [mostRecent, hmr, addFact]
      by_cases hk : p.1 = k
      · subst hk; simp [Option.or]
      · rw [if_neg (fun hh => hk hh.symm), if_neg hk]
    · simp [mostRecent, hmr, Option.or]

theorem foldl_replaceCpd_cpds (batch : List Cpd) :
    ∀ (m : Model) (v : Var),
      (batch.foldl replaceCpd m).cpds v = (lastCpdFor batch v).getD (m.cpds v) := by
  induction batch with
  | nil => intro m v; rfl
  | cons c rest ih =>
    intro m v
    rw [List.foldl_cons, ih (replaceCpd m c) v]
    rcases hl : lastCpdFor rest v with _ | f
    · simp only [lastCpdFor, hl, replaceCpd]
      by_cases hv : c.child = v
      · subst hv; simp
      · rw [if_neg (fun hh => hv hh.symm), if_neg hv]
    · simp [lastCpdFor, hl]

theorem mem_insertions (x : Var) (l1 : List Var) :
    ∀ l2 : List Var, l1 ++ x :: l2 ∈ insertions x (l1 ++ l2) := by
  induction l1 with
  | nil => intro l2; cases l2 <;> simp [insertions]
  | cons y l1' ih =>
    intro l2
    simp only [List.cons_append, insertions]
    exact List.mem_cons_of_mem _ (List.mem_map_of_mem _ (ih l2))

theorem perm_mem_permsList (xs : List Var) :
    ∀ l : List Var, l.Perm xs → l ∈ permsList xs := by
  induction xs with
  | nil =>
    intro l h
    rw [h.eq_nil]
    simp [permsList]
  | cons x xs' ih =>
    intro l h
    obtain ⟨l1, l2, rfl⟩ := List.append_of_mem (h.mem_iff.mpr (List.mem_cons_self x xs'))
    have h2 : (l1 ++ l2).Perm xs' :=
      (List.perm_cons x).mp ((List.perm_middle).symm.trans h)
    simp only [permsList, List.mem_flatMap]
    exact ⟨l1 ++ l2, ih (l1 ++ l2) h2, mem_insertions x l1 l2⟩

theorem permsList_posterior_eq :
    ∀ e : EvT, ∀ o1 ∈ permsList (elimOrder e), ∀ o2 ∈ permsList (elimOrder e),
      ∀ b : Fin 2,
        posteriorVal initialModel e o1 b = posteriorVal initialModel e o2 b := by
  decide

/-- C1: for the model of `KnowledgeBase` (priors 0.7/0.3, 0.6/0.4,
0.8/0.2 and the 8-column Nota CPD), `infer` with query Nota and evidence
`{Inteligencia: 1, Asistencia: 1}` marginalizes out exactly Dificultad and
returns a posterior with `P(Nota=1) = 0.6*0.4 + 0.4*0.7 = 0.52`, well
within tolerance 1e-6. -/
theorem C1_end_to_end_posterior :
    elimOrder (some 1, none, some 1) = [Var.Dificultad] ∧
    inferNota1 initialModel (some 1, none, some 1) =
      6/10 * 4/10 + 4/10 * 7/10 ∧
    |inferNota1 initialModel (some 1, none, some 1) - 52/100| ≤ tol := by
  decide

/-- C2 counterexample: the batch `[badCpd]` makes validation fail, yet
after `update_knowledge` the model's conditional factor for Inteligencia
is the new, invalid one — the prior factors are not restored. -/
theorem C2_counterexample :
    (updateKnowledge initialModel [badCpd]).1 = false ∧
    ¬ ((updateKnowledge initialModel [badCpd]).2.cpds Var.Inteligencia).val
          (toAssign (0, 0, 0, 0)) =
        (initialModel.cpds Var.Inteligencia).val (toAssign (0, 0, 0, 0)) := by
  decide

/-- C2 (amended): `update_knowledge` is not all-or-nothing — it first
applies every replacement of the batch and only then validates, so after
the call each variable holds the last factor the batch supplied for it
(its prior factor only when the batch never touched it), even when
validation fails and the assertion error is raised. -/
theorem C2_batch_applied_without_rollback :
    ∀ (m : Model) (batch : List Cpd) (v : Var),
      (updateKnowledge m batch).2.cpds v =
        (lastCpdFor batch v).getD (m.cpds v) ∧
      (updateKnowledge m batch).1 = checkModel (batch.foldl replaceCpd m) := by
  intro m batch v
  exact ⟨foldl_replaceCpd_cpds batch m v, rfl⟩

/-- C3: every conditional factor of a validated model is normalized per
parent assignment — each column sums to 1 within 1e-6 — and the model
built in `_define_cpds` passes validation. -/
theorem C3_validated_model_cpds_normalized :
    (∀ m : Model, checkModelP m → ∀ v : Var, ∀ a : Asg,
      |colSum m v (toAssign a) - 1| ≤ tol) ∧
    checkModelP initialModel := by
  refine ⟨fun m h v a => (h v).2 a, ?_⟩
  decide

/-- Witness for C3 at the Nota CPD of the concrete model. -/
theorem C3_normalization_witness :
    |colSum initialModel Var.Nota (toAssign (1, 1, 1, 0)) - 1| ≤ tol :=
  C3_validated_model_cpds_normalized.1 initialModel (by decide) Var.Nota (1, 1, 1, 0)

/-- C4: for every in-domain evidence configuration, the distribution the
engine returns over Nota is a genuine posterior: both values are
non-negative and they sum to exactly 1. -/
theorem C4_posterior_is_distribution :
    ∀ e : EvT,
      0 ≤ posteriorVal initialModel e (elimOrder e) 0 ∧
      0 ≤ posteriorVal initialModel e (elimOrder e) 1 ∧
      posteriorVal initialModel e (elimOrder e) 0 +
        posteriorVal initialModel e (elimOrder e) 1 = 1 := by
  decide

/-- C5: evidence outside a variable's domain (any entered value other
than 0 or 1) is rejected before any inference: `run_inference` raises,
produces no posterior, and leaves the whole state untouched — nothing is
clamped into the domain. -/
theorem C5_out_of_domain_evidence_rejected :
    ∀ (s : SysState) (i a : ℤ), ¬((i = 0 ∨ i = 1) ∧ (a = 0 ∨ a = 1)) →
      runInference s (some i) (some a) = (s, none) := by
  intro s i a h
  simp only [runInference]
  rw [if_neg h]

/-- Witness for C5: Inteligencia = 2 is rejected. -/
theorem C5_rejection_witness :
    runInference initState (some 2) (some 1) = (initState, none) :=
  C5_out_of_domain_evidence_rejected initState 2 1 (by decide)

/-- C6: validation runs and succeeds before any inference: a system state
exists only when the constructor's `assert check_model()` passed, and
every state reachable through `run_inference` calls still carries that
same validated model. -/
theorem C6_model_validated_before_inference :
    ∀ s0 : SysState, mkExpertSystem = some s0 →
      checkModel s0.model = true ∧
      ∀ inputs : List (Option ℤ × Option ℤ),
        (inputs.foldl stepUI s0).model = s0.model ∧
        checkModel (inputs.foldl stepUI s0).model = true := by
  intro s0 h0
  have hck : checkModel initialModel = true := by decide
  have hmk : mkExpertSystem = some initState := by
    unfold mkExpertSystem
    exact if_pos hck
  have hs0 : s0 = initState := by
    have := hmk.symm.trans h0
    exact (Option.some.inj this).symm
  subst hs0
  refine ⟨hck, fun inputs => ⟨foldl_stepUI_model inputs initState, ?_⟩⟩
  rw [foldl_stepUI_model inputs initState]
  exact hck

/-- Witness for C6 on a one-interaction execution. -/
theorem C6_validation_witness :
    checkModel (([((some 1 : Option ℤ), (some 0 : Option ℤ))].foldl
      stepUI initState).model) = true :=
  ((C6_model_validated_before_inference initState
    (by unfold mkExpertSystem; exact if_pos (by decide))).2
      [(some 1, some 0)]).2

/-- C7: elimination-order independence — for every evidence configuration
and every two orders that are permutations of the engine's elimination
set, the posteriors over Nota agree within 1e-6 (they are in fact equal). -/
theorem C7_elimination_order_independent :
    ∀ (e : EvT) (o1 o2 : List Var),
      o1.Perm (elimOrder e) → o2.Perm (elimOrder e) → ∀ b : Fin 2,
        |posteriorVal initialModel e o1 b -
          posteriorVal initialModel e o2 b| ≤ tol := by
  intro e o1 o2 h1 h2 b
  rw [permsList_posterior_eq e o1 (perm_mem_permsList _ o1 h1)
      o2 (perm_mem_permsList _ o2 h2) b]
  rw [sub_self, abs_zero]
  norm_num [tol]

/-- Witness for C7: the two orders over {Inteligencia, Asistencia} when
only Dificultad is observed. -/
theorem C7_order_witness :
    |posteriorVal initialModel (none, some 0, none)
        [Var.Inteligencia, Var.Asistencia] 1 -
      posteriorVal initialModel (none, some 0, none)
        [Var.Asistencia, Var.Inteligencia] 1| ≤ tol :=
  C7_elimination_order_independent (none, some 0, none)
    [Var.Inteligencia, Var.Asistencia] [Var.Asistencia, Var.Inteligencia]
    (by decide) (by decide) 1

/-- C8: `run_inference` (hence `infer`) is read-only on the model: after
any call the model, its edges and every conditional factor are exactly
what they were before. -/
theorem C8_infer_leaves_model_unchanged :
    ∀ (s : SysState) (iv av : Option ℤ),
      ((runInference s iv av).1).model = s.model ∧
      ((runInference s iv av).1).model.edges = s.model.edges ∧
      ∀ v : Var, ((runInference s iv av).1).model.cpds v = s.model.cpds v := by
  intro s iv av
  have h := runInference_model s iv av
  exact ⟨h, by rw [h], fun v => by rw [h]⟩

/-- C9: the fact base is a last-write-wins map — a fold of `add_fact`
calls maps each key to its most recent value, re-adding a key overwrites
its prior value, and a successful query only overwrites the two entered
keys, never clearing the rest of the fact base. -/
theorem C9_factbase_last_write_wins :
    (∀ (ops : List (String × ℤ)) (k : String),
      buildFacts ops k = mostRecent ops k) ∧
    (∀ (fb : String → Option ℤ) (k : String) (v1 v2 : ℤ) (k' : String),
      addFact (addFact fb k v1) k v2 k' = addFact fb k v2 k') ∧
    (∀ (s : SysState) (i a : ℤ) (k : String),
      k ≠ "Inteligencia" → k ≠ "Asistencia" →
      ((runInference s (some i) (some a)).1).factBase k = s.factBase k) := by
  refine ⟨?_, ?_, ?_⟩
  · intro ops k
    rw [buildFacts, foldl_addFact_or ops (fun _ => none) k]
    rcases mostRecent ops k with _ | v <;> rfl
  · intro fb k v1 v2 k'
    unfold addFact
    by_cases hk : k' = k
    · simp [hk]
    · simp [hk]
  · intro s i a k hkI hkA
    simp only [runInference]
    split
    · show addFact (addFact s.factBase "Inteligencia" i) "Asistencia" a k = _
      rw [addFact, if_neg hkA, addFact, if_neg hkI]
    · rfl

/-- Witness for C9: the later of two writes to the same key wins, and a
query leaves an unrelated key untouched. -/
theorem C9_lastwrite_witness :
    buildFacts [("a", (1 : ℤ)), ("a", 2)] "a" =
      mostRecent [("a", (1 : ℤ)), ("a", 2)] "a" ∧
    ((runInference initState (some 1) (some 1)).1).factBase "x" =
      initState.factBase "x" :=
  ⟨C9_factbase_last_write_wins.1 [("a", 1), ("a", 2)] "a",
   C9_factbase_last_write_wins.2.2 initState 1 1 "x" (by decide) (by decide)⟩

/-- C10: `run_inference` is atomic on invalid input — a parse failure or
a value outside {0, 1} leaves the fact base, the justification log and
both database tables unchanged, and no result is produced. -/
theorem C10_invalid_input_leaves_state_unchanged :
    ∀ (s : SysState) (iv av : Option ℤ),
      (iv = none ∨ av = none ∨
        (∃ i, iv = some i ∧ ¬(i = 0 ∨ i = 1)) ∨
        (∃ a, av = some a ∧ ¬(a = 0 ∨ a = 1))) →
      (runInference s iv av).1.factBase = s.factBase ∧
      (runInference s iv av).1.justifications = s.justifications ∧
      (runInference s iv av).1.dbFacts = s.dbFacts ∧
      (runInference s iv av).1.dbResults = s.dbResults ∧
      (runInference s iv av).2 = none := by
  intro s iv av h
  rcases iv with _ | i
  · exact ⟨rfl, rfl, rfl, rfl, rfl⟩
  rcases av with _ | a
  · exact ⟨rfl, rfl, rfl, rfl, rfl⟩
  have hne : ¬((i = 0 ∨ i = 1) ∧ (a = 0 ∨ a = 1)) := by
    rcases h with h | h | ⟨i', hi, hni⟩ | ⟨a', ha, hna⟩
    · exact absurd h (by simp)
    · exact absurd h (by simp)
    · cases Option.some.inj hi; exact fun hc => hni hc.1
    · cases Option.some.inj ha; exact fun hc => hna hc.2
  simp only [runInference]
  rw [if_neg hne]
  exact ⟨rfl, rfl, rfl, rfl, rfl⟩

/-- Witness for C10 at the out-of-domain input Inteligencia = 5. -/
theorem C10_atomicity_witness :
    (runInference initState (some 5) (some 1)).1.factBase =
      initState.factBase ∧
    (runInference initState (some 5) (some 1)).1.dbResults =
      initState.dbResults :=
  ⟨(C10_invalid_input_leaves_state_unchanged initState (some 5) (some 1)
      (Or.inr (Or.inr (Or.inl ⟨5, rfl, by decide⟩)))).1,
   (C10_invalid_input_leaves_state_unchanged initState (some 5) (some 1)
      (Or.inr (Or.inr (Or.inl ⟨5, rfl, by decide⟩)))).2.2.2.1⟩

end BayesES
